import Mathlib

/-!
Verification of `MqttPubSubClient` (src/sdk/src/sdk/pubsub/MqttPubSubClient.cpp).

The C++ class is a thin adapter over an external MQTT client library.  We embed
it shallowly: the mutable object state (`m_connectOptions`, `m_subscriberMap`)
becomes an explicit `ClientState` record that every method takes and returns;
calls into the external library and into the logger become entries of an
explicit `Effect` trace; the outcomes of the external library (whether a future
becomes ready in time, whether a call throws) are inputs supplied by an
environment value; C++ exceptions become the `Except` monad, so "the method
never throws" is "the result is always `Except.ok`".  C++ `int` timeouts are
modelled as `Int` (only order comparisons are performed on them, so no overflow
arithmetic is involved).
-/

namespace Velocitas

/-- `PublishStatus` as in sdk/Status.h, used by the timed publish overload. -/
inductive PublishStatus
  | Success
  | Timeout
  | Failure
deriving DecidableEq, Repr

/-- The kinds of C++ exceptions that the code distinguishes in its catch
clauses: `mqtt::exception` (thrown by the wrapped library) and any other
`std::exception`. -/
inductive ExcKind
  | mqttExc
  | stdExc
deriving DecidableEq, Repr

/-- `m_connectOptions`: one value per constructor of `MqttPubSubClient`
(lines 39-74): default options, username/password, token passed as user name,
or mutual TLS with the three key-material paths. -/
inductive ConnectOptions
  | plain
  | userPass (username password : String)
  | tokenUser (token : String)
  | mutualTls (trustStorePath keyStorePath privateKeyPath : String)
deriving DecidableEq, Repr

/-- Identifier standing for one `AsyncSubscription<std::string>` handle. -/
abbrev SubId := Nat

/-- Observable side effects of a method: logger calls and calls into the
wrapped MQTT client / thread pool, in program order. -/
inductive Effect
  | logDebug
  | logInfo
  | logWarn
  | logError
  | brokerConnect
  | brokerReconnect
  | reconnectWaitFor (boundMs : Int)
  | brokerPublish (topic data : String)
  | asyncLaunch
  | futureWaitFor (boundMs : Int)
  | mapInsert (topic : String) (sub : SubId)
  | brokerSubscribe (topic : String)
  | brokerUnsubscribe (topic : String)
  | mapEraseRange (topic : String)
  | poolEnqueue (sub : SubId) (payload : String)
deriving DecidableEq, Repr

/-- The mutable state of a `MqttPubSubClient` object: the broker URI and client
id held by `m_client`, `m_connectOptions`, and `m_subscriberMap`
(an `unordered_multimap` from topic to subscription, modelled as a list of
key/value pairs). -/
structure ClientState where
  brokerUri : String
  clientId : String
  connectOptions : ConnectOptions
  subscriberMap : List (String × SubId)
deriving DecidableEq, Repr

/-- Constructor `MqttPubSubClient(brokerUri, clientId)` (line 39): default
connect options. -/
def MqttPubSubClient.mkPlain (brokerUri clientId : String) : ClientState :=
  { brokerUri := brokerUri, clientId := clientId,
    connectOptions := .plain, subscriberMap := [] }

/-- Constructor `MqttPubSubClient(brokerUri, clientId, username, password)`
(line 44). -/
def MqttPubSubClient.mkUserPass (brokerUri clientId username password : String) :
    ClientState :=
  { brokerUri := brokerUri, clientId := clientId,
    connectOptions := .userPass username password, subscriberMap := [] }

/-- Constructor `MqttPubSubClient(brokerUri, clientId, token)` (line 50): the
token is installed as the user name of the connect options. -/
def MqttPubSubClient.mkToken (brokerUri clientId token : String) : ClientState :=
  { brokerUri := brokerUri, clientId := clientId,
    connectOptions := .tokenUser token, subscriberMap := [] }

/-- Constructor `MqttPubSubClient(brokerUri, clientId, trustStorePath,
keyStorePath, privateKeyPath)` (line 58): mutual-TLS connect options. -/
def MqttPubSubClient.mkMutualTls
    (brokerUri clientId trustStorePath keyStorePath privateKeyPath : String) :
    ClientState :=
  { brokerUri := brokerUri, clientId := clientId,
    connectOptions := .mutualTls trustStorePath keyStorePath privateKeyPath,
    subscriberMap := [] }

/-- Environment for the timed publish (lines 131-173): whether `std::async`
itself throws at launch, whether the future becomes ready within a given
wait bound, and the result the task stored in the future (observed by
`future.get()`: `ok` for `PublishStatus::Success`, `error` when the task
threw). -/
structure PublishEnv where
  launchOutcome : Except ExcKind Unit
  readyWithin : Int → Bool
  taskResult : Except ExcKind Unit

/-- `MqttPubSubClient::publishOnTopic(topic, data, timeout_ms)`
(lines 131-173).  Non-positive timeouts are rejected as `Timeout`;
timeouts above 30000 ms are capped; the publish runs in a background task
raced against `future.wait_for`; `mqtt::exception` and `std::exception`
are both caught and mapped to `Failure`. -/
def publishOnTopicTimed (s : ClientState) (env : PublishEnv)
    (topic data : String) (timeout_ms : Int) :
    List Effect × Except ExcKind PublishStatus × ClientState :=
  if timeout_ms ≤ 0 then
    ([.logWarn], .ok .Timeout, s)
  else
    let t := if timeout_ms > 30000 then 30000 else timeout_ms
    let warnTrace : List Effect := if timeout_ms > 30000 then [.logWarn] else []
    match env.launchOutcome with
    | .error _ =>
        (warnTrace ++ [.logDebug, .logError], .ok .Failure, s)
    | .ok _ =>
        let base := warnTrace ++
          [.logDebug, .asyncLaunch, .brokerPublish topic data, .futureWaitFor t]
        if env.readyWithin t then
          match env.taskResult with
          | .ok _ => (base, .ok .Success, s)
          | .error _ => (base ++ [.logError], .ok .Failure, s)
        else
          (base ++ [.logWarn], .ok .Timeout, s)

/-- Outcome of one attempt of the wrapped library's reconnect path
(lines 108-117): `m_client.reconnect()` may throw `mqtt::exception`;
otherwise `token->wait_for` either throws `mqtt::exception`, returns `false`
(timed out), or returns `true` (reconnected within the bound). -/
inductive ReconnectOutcome
  | callThrowsMqtt
  | waitThrowsMqtt
  | waitTimedOut
  | completedWithin
deriving DecidableEq, Repr

/-- `MqttPubSubClient::reconnect(timeout_ms)` (lines 92-118).  Logs the
attempt, rejects non-positive timeouts with an error log, caps the timeout at
30000 ms, then calls the library reconnect and waits on its token; any
`mqtt::exception` is caught and logged. -/
def reconnect (s : ClientState) (outcome : ReconnectOutcome) (timeout_ms : Int) :
    List Effect × Except ExcKind Unit × ClientState :=
  if timeout_ms ≤ 0 then
    ([.logInfo, .logError], .ok (), s)
  else
    let t := if timeout_ms > 30000 then 30000 else timeout_ms
    let warnTrace : List Effect := if timeout_ms > 30000 then [.logWarn] else []
    match outcome with
    | .callThrowsMqtt =>
        ([.logInfo] ++ warnTrace ++ [.brokerReconnect, .logError], .ok (), s)
    | .waitThrowsMqtt =>
        ([.logInfo] ++ warnTrace ++
          [.brokerReconnect, .reconnectWaitFor t, .logError], .ok (), s)
    | .waitTimedOut =>
        ([.logInfo] ++ warnTrace ++
          [.brokerReconnect, .reconnectWaitFor t, .logError], .ok (), s)
    | .completedWithin =>
        ([.logInfo] ++ warnTrace ++
          [.brokerReconnect, .reconnectWaitFor t, .logInfo], .ok (), s)

/-- `MqttPubSubClient::connect()` (lines 78-90): logs, warns if the deprecated
`MQTT_BROKER_URI` environment variable is set, then blocks on
`m_client.connect(m_connectOptions)->wait()`, which may throw. -/
def connect (s : ClientState) (envVarSet brokerOk : Bool) :
    List Effect × Except ExcKind Unit × ClientState :=
  let warnTrace : List Effect := if envVarSet then [.logWarn] else []
  if brokerOk then
    ([.logInfo] ++ warnTrace ++ [.brokerConnect], .ok (), s)
  else
    ([.logInfo] ++ warnTrace ++ [.brokerConnect], .error .mqttExc, s)

/-- Fire-and-forget `MqttPubSubClient::publishOnTopic(topic, data)`
(lines 125-129): logs and blocks on `m_client.publish(topic, data)->wait()`,
which may throw. -/
def publishOnTopic (s : ClientState) (brokerOk : Bool) (topic data : String) :
    List Effect × Except ExcKind Unit × ClientState :=
  if brokerOk then
    ([.logDebug, .brokerPublish topic data], .ok (), s)
  else
    ([.logDebug, .brokerPublish topic data], .error .mqttExc, s)

/-- `MqttPubSubClient::subscribeTopic(topic)` (lines 175-182): creates a fresh
subscription handle (`newSub`), inserts it into `m_subscriberMap`, and only
then blocks on the broker-level subscribe, which may throw. -/
def subscribeTopic (s : ClientState) (brokerOk : Bool) (topic : String)
    (newSub : SubId) :
    List Effect × Except ExcKind SubId × ClientState :=
  let s' := { s with subscriberMap := s.subscriberMap ++ [(topic, newSub)] }
  if brokerOk then
    ([.logDebug, .mapInsert topic newSub, .brokerSubscribe topic],
     .ok newSub, s')
  else
    ([.logDebug, .mapInsert topic newSub, .brokerSubscribe topic],
     .error .mqttExc, s')

/-- `MqttPubSubClient::unsubscribeTopic(topic)` (lines 184-189): blocks on the
broker-level unsubscribe (which may throw, leaving the map untouched), then
erases the whole `equal_range` of the topic from `m_subscriberMap`. -/
def unsubscribeTopic (s : ClientState) (brokerOk : Bool) (topic : String) :
    List Effect × Except ExcKind Unit × ClientState :=
  if brokerOk then
    ([.logDebug, .brokerUnsubscribe topic, .mapEraseRange topic], .ok (),
     { s with subscriberMap := s.subscriberMap.filter (fun e => e.1 != topic) })
  else
    ([.logDebug, .brokerUnsubscribe topic], .error .mqttExc, s)

/-- A delivery closure enqueued on the shared thread pool by
`message_arrived`: it targets one subscription and carries the payload. -/
structure DeliveryJob where
  sub : SubId
  payload : String
deriving DecidableEq, Repr

/-- What a delivery job does to its subscription when it runs. -/
inductive SubEvent
  | item (payload : String)
  | errorStatus
deriving DecidableEq, Repr

/-- `MqttPubSubClient::message_arrived(msg)` (lines 192-210): looks up the
`equal_range` of the exact message topic in `m_subscriberMap` and enqueues one
delivery job per matching subscription on `ThreadPool::getInstance()`.
Returns the trace and the list of enqueued jobs; the object state is
unchanged. -/
def message_arrived (s : ClientState) (topic payload : String) :
    List Effect × List DeliveryJob × ClientState :=
  let range := s.subscriberMap.filter (fun e => e.1 == topic)
  ([Effect.logDebug] ++ range.map (fun e => Effect.poolEnqueue e.2 payload),
   range.map (fun e => { sub := e.2, payload := payload }), s)

/-- The body of one enqueued delivery job (lines 201-208): it pushes the
payload into its subscription with `insertNewItem`; if that throws a
`std::exception` it inserts an error status into the same subscription
instead. -/
def runDeliveryJob (job : DeliveryJob) (pushThrows : Bool) : SubId × SubEvent :=
  if pushThrows then (job.sub, .errorStatus) else (job.sub, .item job.payload)

/-- A convenient concrete publish environment for witnesses: the launch
succeeds, the future is always ready in time, and the task succeeded. -/
def envAllOk : PublishEnv :=
  { launchOutcome := .ok (), readyWithin := fun _ => true, taskResult := .ok () }

/-- C1: a timed publish with a non-positive timeout returns
`PublishStatus::Timeout` and never launches the background task nor attempts
a broker publish. -/
theorem publishOnTopicTimed_nonpos (s : ClientState) (env : PublishEnv)
    (topic data : String) (timeout_ms : Int) (h : timeout_ms ≤ 0) :
    (publishOnTopicTimed s env topic data timeout_ms).2.1 = .ok .Timeout ∧
    (∀ t d, Effect.brokerPublish t d ∉
      (publishOnTopicTimed s env topic data timeout_ms).1) ∧
    Effect.asyncLaunch ∉ (publishOnTopicTimed s env topic data timeout_ms).1 := by
  simp [publishOnTopicTimed, h]

/-- C1 witness: the non-positive-timeout theorem at `timeout_ms = 0`. -/
theorem publishOnTopicTimed_nonpos_witness :
    (publishOnTopicTimed (MqttPubSubClient.mkPlain "uri" "id") envAllOk
      "topic" "data" 0).2.1 = .ok .Timeout ∧
    Effect.asyncLaunch ∉
      (publishOnTopicTimed (MqttPubSubClient.mkPlain "uri" "id") envAllOk
        "topic" "data" 0).1 := by
  have h := publishOnTopicTimed_nonpos (MqttPubSubClient.mkPlain "uri" "id")
    envAllOk "topic" "data" 0 (by decide)
  exact ⟨h.1, h.2.2⟩

/-- C2: for a positive requested timeout, every wait bound handed to
`future.wait_for` is exactly `min(timeout_ms, 30000)`: 30000 when the request
exceeds 30000 ms, the request itself otherwise; and when the background task
launches, such a wait does occur. -/
theorem publishOnTopicTimed_capsTimeout (s : ClientState) (env : PublishEnv)
    (topic data : String) (timeout_ms : Int) (h : 0 < timeout_ms) :
    (∀ b, Effect.futureWaitFor b ∈
        (publishOnTopicTimed s env topic data timeout_ms).1 →
      b = if timeout_ms > 30000 then 30000 else timeout_ms) ∧
    (env.launchOutcome = .ok () →
      Effect.futureWaitFor (if timeout_ms > 30000 then 30000 else timeout_ms) ∈
        (publishOnTopicTimed s env topic data timeout_ms).1) := by
  have h0 : ¬ timeout_ms ≤ 0 := not_le.mpr h
  obtain ⟨lo, rdy, tr⟩ := env
  constructor
  · intro b hb
    cases lo with
    | error e =>
        by_cases hcap : timeout_ms > 30000 <;>
          simp [publishOnTopicTimed, h0, hcap] at hb
    | ok u =>
        cases u
        by_cases hcap : timeout_ms > 30000
        · cases hr : rdy 30000 <;> cases tr <;>
            (simp [publishOnTopicTimed, h0, hcap, hr] at hb ⊢; omega)
        · cases hr : rdy timeout_ms <;> cases tr <;>
            (simp [publishOnTopicTimed, h0, hcap, hr] at hb ⊢; omega)
  · intro hok
    cases lo with
    | error e => simp at hok
    | ok u =>
        cases u
        by_cases hcap : timeout_ms > 30000
        · cases hr : rdy 30000 <;> cases tr <;>
            simp [publishOnTopicTimed, h0, hcap, hr]
        · cases hr : rdy timeout_ms <;> cases tr <;>
            simp [publishOnTopicTimed, h0, hcap, hr]

/-- C2 witness: requesting 40000 ms results in a wait bound of exactly
30000 ms. -/
theorem publishOnTopicTimed_capsTimeout_witness :
    Effect.futureWaitFor 30000 ∈
      (publishOnTopicTimed (MqttPubSubClient.mkPlain "uri" "id") envAllOk
        "topic" "data" 40000).1 := by
  have h := publishOnTopicTimed_capsTimeout (MqttPubSubClient.mkPlain "uri" "id")
    envAllOk "topic" "data" 40000 (by decide)
  simpa using h.2 rfl

/-- C3: the timed publish never propagates an exception — its result is always
a normally returned `PublishStatus` — and for positive timeouts: a launch
failure maps to `Failure`; if the future is ready within the (capped) bound it
returns `Success` when the task succeeded and `Failure` when the task threw
(both `mqtt::exception` and any other `std::exception`); if the future is not
ready within the bound it returns `Timeout`. -/
theorem publishOnTopicTimed_total (s : ClientState) (env : PublishEnv)
    (topic data : String) (timeout_ms : Int) :
    (∃ st, (publishOnTopicTimed s env topic data timeout_ms).2.1 = .ok st) ∧
    (0 < timeout_ms →
      ((∀ e, env.launchOutcome = .error e →
          (publishOnTopicTimed s env topic data timeout_ms).2.1 =
            .ok .Failure) ∧
       (env.launchOutcome = .ok () →
         ((env.readyWithin (if timeout_ms > 30000 then 30000 else timeout_ms) =
              true →
           env.taskResult = .ok () →
             (publishOnTopicTimed s env topic data timeout_ms).2.1 =
               .ok .Success) ∧
          (env.readyWithin (if timeout_ms > 30000 then 30000 else timeout_ms) =
              true →
           (∃ e, env.taskResult = .error e) →
             (publishOnTopicTimed s env topic data timeout_ms).2.1 =
               .ok .Failure) ∧
          (env.readyWithin (if timeout_ms > 30000 then 30000 else timeout_ms) =
              false →
             (publishOnTopicTimed s env topic data timeout_ms).2.1 =
               .ok .Timeout))))) := by
  obtain ⟨lo, rdy, tr⟩ := env
  by_cases h0 : timeout_ms ≤ 0
  · simp [publishOnTopicTimed, h0, not_lt.mpr h0]
  · cases lo with
    | error e => simp [publishOnTopicTimed, h0]
    | ok u =>
        cases u
        by_cases hcap : timeout_ms > 30000
        · cases hr : rdy 30000 <;> cases tr <;>
            simp [publishOnTopicTimed, h0, hcap, hr]
        · cases hr : rdy timeout_ms <;> cases tr <;>
            simp [publishOnTopicTimed, h0, hcap, hr]

/-- C3 witness: with a ready future and a successful task, a 5 ms publish
returns `Success`. -/
theorem publishOnTopicTimed_total_witness :
    (publishOnTopicTimed (MqttPubSubClient.mkPlain "uri" "id") envAllOk
      "topic" "data" 5).2.1 = .ok .Success := by
  have h := publishOnTopicTimed_total (MqttPubSubClient.mkPlain "uri" "id")
    envAllOk "topic" "data" 5
  exact ((h.2 (by decide)).2 rfl).1 rfl rfl

/-- C4: `reconnect` returns normally for every timeout value and for every
outcome of the wrapped library (reconnected in time, timed out, or a thrown
`mqtt::exception` from the reconnect call or from the wait): no exception
ever propagates to the caller. -/
theorem reconnect_neverThrows (s : ClientState) (outcome : ReconnectOutcome)
    (timeout_ms : Int) :
    (reconnect s outcome timeout_ms).2.1 = .ok () := by
  by_cases h0 : timeout_ms ≤ 0 <;> cases outcome <;> simp [reconnect, h0]

/-- C7: for a positive requested timeout, every wait bound handed to the
reconnect token's `wait_for` is exactly `min(timeout_ms, 30000)`, and unless
the reconnect call itself threw, such a wait does occur. -/
theorem reconnect_capsTimeout (s : ClientState) (outcome : ReconnectOutcome)
    (timeout_ms : Int) (h : 0 < timeout_ms) :
    (∀ b, Effect.reconnectWaitFor b ∈ (reconnect s outcome timeout_ms).1 →
      b = if timeout_ms > 30000 then 30000 else timeout_ms) ∧
    (outcome ≠ .callThrowsMqtt →
      Effect.reconnectWaitFor (if timeout_ms > 30000 then 30000 else timeout_ms) ∈
        (reconnect s outcome timeout_ms).1) := by
  have h0 : ¬ timeout_ms ≤ 0 := not_le.mpr h
  constructor
  · intro b hb
    by_cases hcap : timeout_ms > 30000 <;> cases outcome <;>
      (simp [reconnect, h0, hcap] at hb ⊢ <;> omega)
  · intro hne
    by_cases hcap : timeout_ms > 30000 <;> cases outcome <;>
      simp [reconnect, h0, hcap]
    all_goals exact absurd rfl hne

/-- C7 witness: requesting 40000 ms results in a reconnect wait bound of
exactly 30000 ms; requesting 7 ms keeps 7 ms. -/
theorem reconnect_capsTimeout_witness :
    Effect.reconnectWaitFor 30000 ∈
      (reconnect (MqttPubSubClient.mkPlain "uri" "id")
        .completedWithin 40000).1 ∧
    Effect.reconnectWaitFor 7 ∈
      (reconnect (MqttPubSubClient.mkPlain "uri" "id") .completedWithin 7).1 := by
  have h1 := reconnect_capsTimeout (MqttPubSubClient.mkPlain "uri" "id")
    .completedWithin 40000 (by decide)
  have h2 := reconnect_capsTimeout (MqttPubSubClient.mkPlain "uri" "id")
    .completedWithin 7 (by decide)
  exact ⟨by simpa using h1.2 (by decide), by simpa using h2.2 (by decide)⟩

/-- C9: `reconnect` with a non-positive timeout logs the attempt, logs an
error, and returns immediately: its whole trace is those two log calls, the
library reconnect is never invoked, and no exception escapes. -/
theorem reconnect_nonpos (s : ClientState) (outcome : ReconnectOutcome)
    (timeout_ms : Int) (h : timeout_ms ≤ 0) :
    (reconnect s outcome timeout_ms).1 = [.logInfo, .logError] ∧
    Effect.brokerReconnect ∉ (reconnect s outcome timeout_ms).1 ∧
    (reconnect s outcome timeout_ms).2.1 = .ok () := by
  simp [reconnect, h]

/-- C9 witness: the non-positive-timeout reconnect theorem at
`timeout_ms = -3`. -/
theorem reconnect_nonpos_witness :
    (reconnect (MqttPubSubClient.mkPlain "uri" "id") .completedWithin (-3)).1 =
      [.logInfo, .logError] ∧
    Effect.brokerReconnect ∉
      (reconnect (MqttPubSubClient.mkPlain "uri" "id") .completedWithin (-3)).1 := by
  have h := reconnect_nonpos (MqttPubSubClient.mkPlain "uri" "id")
    .completedWithin (-3) (by decide)
  exact ⟨h.1, h.2.1⟩

/-- Helper: the number of delivery jobs targeting `sub` equals the number of
map entries with exactly the message topic and that subscription. -/
lemma length_filter_jobs (m : List (String × SubId)) (topic payload : String)
    (sub : SubId) :
    (((m.filter (fun e => e.1 == topic)).map
        (fun e => DeliveryJob.mk e.2 payload)).filter
      (fun j => j.sub == sub)).length =
    (m.filter (fun e => e.1 == topic && e.2 == sub)).length := by
  induction m with
  | nil => rfl
  | cons a l ih =>
      by_cases h1 : a.1 = topic <;> by_cases h2 : a.2 = sub <;>
        simp [h1, h2, ih]

/-- C5: on an inbound message, one delivery job is enqueued per subscription
record whose key is exactly the message topic (counted with multiplicity; no
wildcard matching), every job carries the message payload and targets a
subscription registered under exactly that topic, the trace enqueues exactly
those jobs on the shared pool, and a job pushes the payload into its own
subscription, or inserts an error into that same subscription when the push
throws. -/
theorem message_arrived_fanout (s : ClientState) (topic payload : String) :
    (∀ sub,
      (((message_arrived s topic payload).2.1).filter
          (fun j => j.sub == sub)).length =
        (s.subscriberMap.filter
          (fun e => e.1 == topic && e.2 == sub)).length) ∧
    (∀ j ∈ (message_arrived s topic payload).2.1,
      j.payload = payload ∧ (topic, j.sub) ∈ s.subscriberMap) ∧
    ((message_arrived s topic payload).1 =
      Effect.logDebug ::
        ((message_arrived s topic payload).2.1).map
          (fun j => Effect.poolEnqueue j.sub payload)) ∧
    (∀ j pushThrows,
      (runDeliveryJob j pushThrows).1 = j.sub ∧
      (pushThrows = false →
        (runDeliveryJob j pushThrows).2 = .item j.payload) ∧
      (pushThrows = true →
        (runDeliveryJob j pushThrows).2 = .errorStatus)) := by
  refine ⟨fun sub => ?_, fun j hj => ?_, ?_, fun j pushThrows => ?_⟩
  · simpa [message_arrived] using
      length_filter_jobs s.subscriberMap topic payload sub
  · simp only [message_arrived, List.mem_map, List.mem_filter] at hj
    obtain ⟨x, ⟨hxm, hxt⟩, rfl⟩ := hj
    refine ⟨rfl, ?_⟩
    have hx1 : x.1 = topic := by simpa using hxt
    simpa [← hx1] using hxm
  · simp [message_arrived, List.map_map, Function.comp]
  · cases pushThrows <;> simp [runDeliveryJob]

/-- Concrete client state used by delivery and unsubscription witnesses: two
subscriptions on topic `a`, one on topic `b`. -/
def stSubs : ClientState :=
  { brokerUri := "uri", clientId := "id", connectOptions := .plain,
    subscriberMap := [("a", 1), ("b", 2), ("a", 3)] }

/-- C5 witness: with subscriptions 1 and 3 on topic `a` and 2 on topic `b`,
a message on `a` produces exactly one job for subscription 1, none for
subscription 2, and a non-throwing job delivers the payload. -/
theorem message_arrived_fanout_witness :
    (((message_arrived stSubs "a" "p").2.1).filter
        (fun j => j.sub == 1)).length = 1 ∧
    (((message_arrived stSubs "a" "p").2.1).filter
        (fun j => j.sub == 2)).length = 0 ∧
    (runDeliveryJob { sub := 1, payload := "p" } false).2 = .item "p" := by
  have h := message_arrived_fanout stSubs "a" "p"
  refine ⟨?_, ?_, (h.2.2.2 { sub := 1, payload := "p" } false).2.1 rfl⟩
  · rw [h.1 1]; rfl
  · rw [h.1 2]; rfl

/-- Helper: erasing all entries of one key leaves the sublist of entries of
any other key unchanged. -/
lemma filter_bne_filter_beq (m : List (String × SubId)) (topic t : String)
    (ht : t ≠ topic) :
    (m.filter (fun e => e.1 != topic)).filter (fun e => e.1 == t) =
      m.filter (fun e => e.1 == t) := by
  induction m with
  | nil => rfl
  | cons a l ih =>
      by_cases h1 : a.1 = topic
      · have h2 : ¬ a.1 = t := by rw [h1]; exact fun hh => ht hh.symm
        have hb1 : (a.1 != topic) = false := by simp [h1]
        have hb2 : (a.1 == t) = false := by simp [h2]
        simp [hb1, hb2, ih]
      · have hb1 : (a.1 != topic) = true := by simp [h1]
        simp [List.filter_cons, hb1, ih]

/-- C6: after a successful `unsubscribeTopic(topic)`, no subscription record
keyed by `topic` remains in the subscriber map, and for every other topic the
records (and their order) are exactly as before. -/
theorem unsubscribeTopic_erasesExactly (s : ClientState) (brokerOk : Bool)
    (topic : String) (h : brokerOk = true) :
    (∀ sub, (topic, sub) ∉
      ((unsubscribeTopic s brokerOk topic).2.2).subscriberMap) ∧
    (∀ t, t ≠ topic →
      ((unsubscribeTopic s brokerOk topic).2.2).subscriberMap.filter
          (fun e => e.1 == t) =
        s.subscriberMap.filter (fun e => e.1 == t)) := by
  subst h
  constructor
  · intro sub hmem
    simp [unsubscribeTopic, List.mem_filter] at hmem
  · intro t ht
    simpa [unsubscribeTopic] using
      filter_bne_filter_beq s.subscriberMap topic t ht

/-- C6 witness: unsubscribing topic `a` from `stSubs` removes both records
keyed `a` and keeps the record keyed `b` unchanged. -/
theorem unsubscribeTopic_erasesExactly_witness :
    (("a", 1) ∉ ((unsubscribeTopic stSubs true "a").2.2).subscriberMap) ∧
    ((unsubscribeTopic stSubs true "a").2.2).subscriberMap.filter
        (fun e => e.1 == "b") =
      stSubs.subscriberMap.filter (fun e => e.1 == "b") := by
  have h := unsubscribeTopic_erasesExactly stSubs true "a" rfl
  exact ⟨h.1 1, h.2 "b" (by decide)⟩

/-- C8: the connect options are fixed by the constructor — default for the
plain constructor, username/password, token-as-username, mutual TLS — and no
operation (connect, reconnect, either publish, subscribe, unsubscribe,
message delivery) changes them. -/
theorem connectOptions_immutable
    (brokerUri clientId username password token tsp ksp pkp : String)
    (s : ClientState) (envVarSet brokerOk : Bool) (env : PublishEnv)
    (outcome : ReconnectOutcome) (timeout_ms : Int)
    (topic data payload : String) (newSub : SubId) :
    (MqttPubSubClient.mkPlain brokerUri clientId).connectOptions =
      .plain ∧
    (MqttPubSubClient.mkUserPass brokerUri clientId username
        password).connectOptions = .userPass username password ∧
    (MqttPubSubClient.mkToken brokerUri clientId token).connectOptions =
      .tokenUser token ∧
    (MqttPubSubClient.mkMutualTls brokerUri clientId tsp ksp
        pkp).connectOptions = .mutualTls tsp ksp pkp ∧
    ((connect s envVarSet brokerOk).2.2).connectOptions = s.connectOptions ∧
    ((reconnect s outcome timeout_ms).2.2).connectOptions =
      s.connectOptions ∧
    ((publishOnTopic s brokerOk topic data).2.2).connectOptions =
      s.connectOptions ∧
    ((publishOnTopicTimed s env topic data timeout_ms).2.2).connectOptions =
      s.connectOptions ∧
    ((subscribeTopic s brokerOk topic newSub).2.2).connectOptions =
      s.connectOptions ∧
    ((unsubscribeTopic s brokerOk topic).2.2).connectOptions =
      s.connectOptions ∧
    ((message_arrived s topic payload).2.2).connectOptions =
      s.connectOptions := by
  refine ⟨rfl, rfl, rfl, rfl, ?_, ?_, ?_, ?_, ?_, ?_, rfl⟩
  · cases brokerOk <;> cases envVarSet <;> simp [connect]
  · by_cases h0 : timeout_ms ≤ 0 <;> cases outcome <;> simp [reconnect, h0]
  · cases brokerOk <;> simp [publishOnTopic]
  · obtain ⟨lo, rdy, tr⟩ := env
    by_cases h0 : timeout_ms ≤ 0
    · simp [publishOnTopicTimed, h0]
    · cases lo with
      | error e => simp [publishOnTopicTimed, h0]
      | ok u =>
          by_cases hcap : timeout_ms > 30000
          · cases hr : rdy 30000 <;> cases tr <;>
              simp [publishOnTopicTimed, h0, hcap, hr]
          · cases hr : rdy timeout_ms <;> cases tr <;>
              simp [publishOnTopicTimed, h0, hcap, hr]
  · cases brokerOk <;> simp [subscribeTopic]
  · cases brokerOk <;> simp [unsubscribeTopic]

/-- C10: `subscribeTopic` appends the new record to the subscriber map before
the broker-level subscribe is issued (the trace shows the insert strictly
before the broker call), so when the broker subscribe throws, the exception
propagates to the caller while the record stays registered. -/
theorem subscribeTopic_insertsBeforeBroker (s : ClientState) (brokerOk : Bool)
    (topic : String) (newSub : SubId) :
    ((subscribeTopic s brokerOk topic newSub).2.2).subscriberMap =
      s.subscriberMap ++ [(topic, newSub)] ∧
    (subscribeTopic s brokerOk topic newSub).1 =
      [.logDebug, .mapInsert topic newSub, .brokerSubscribe topic] ∧
    (brokerOk = false →
      (subscribeTopic s brokerOk topic newSub).2.1 = .error .mqttExc ∧
      (topic, newSub) ∈
        ((subscribeTopic s brokerOk topic newSub).2.2).subscriberMap) := by
  cases brokerOk <;> simp [subscribeTopic]

/-- C10 witness: with a failing broker subscribe, the call reports the
exception and the record for the topic is still in the map. -/
theorem subscribeTopic_insertsBeforeBroker_witness :
    (subscribeTopic (MqttPubSubClient.mkPlain "uri" "id") false "a" 1).2.1 =
      .error .mqttExc ∧
    ("a", 1) ∈
      ((subscribeTopic (MqttPubSubClient.mkPlain "uri" "id")
        false "a" 1).2.2).subscriberMap := by
  exact (subscribeTopic_insertsBeforeBroker
    (MqttPubSubClient.mkPlain "uri" "id") false "a" 1).2.2 rfl

end Velocitas
